import Mathlib

/-!
# Verification of the drill-log VTK conversion core

Shallow embedding of the core of the repository (survey-point parsing,
LMR coordinate transform, trajectory building, hand-rolled VTK ASCII
writer and the library-free VTK reader) together with proofs and
refutations of the stated specification properties.

Modelling conventions:

* A VTK ASCII file is modelled at the lexical level as a list of lines,
  each line being a list of whitespace-delimited tokens (`Tok`).
  A token is either an integer literal (Python `int(tok)` and
  `float(tok)` both succeed), a float literal carrying its numeric
  value (`float(tok)` succeeds, `int(tok)` fails), or a non-numeric
  word (`float(tok)` and `int(tok)` both fail).  Python renders a float
  with `str` and reads it back with `float`, which is exact, so the
  lexical value round-trips; the textual spelling of a numeral is
  abstracted away.
* Python substring searches (`content.find`) for the section keywords
  are modelled as searches for the keyword as a standalone token; in
  every file produced by the writer the keywords occur exactly as
  standalone tokens.
* Trigonometric functions and pi are taken as parameters of the
  numeric computations (the code calls opaque `math.sin` and
  `math.cos` once per conversion); theorems about the default
  configuration instantiate them with `Real.sin`, `Real.cos` and
  `Real.pi`.
-/

/-- One whitespace-delimited token of an ASCII VTK file.  `int z` is an
integer literal, `flt x` a (non-integer-literal) numeric literal with
value `x`, `word s` a token on which Python numeric conversion fails. -/
inductive Tok (α : Type) where
  | int (z : ℤ)
  | flt (x : α)
  | word (s : String)
deriving DecidableEq, Repr

namespace PyStr

/-!
Python string primitives, modelled structurally on `List Char` (Lean's
own `String` functions do not reduce inside the kernel, so concrete
witnesses could not evaluate them).
-/

/-- Python `str.split(sep)` for a single-character separator. -/
def splitOnChar (c : Char) : List Char → List (List Char)
  | [] => [[]]
  | a :: rest =>
      match splitOnChar c rest with
      | [] => if a = c then [[], []] else [[a]]
      | h :: t => if a = c then [] :: h :: t else (a :: h) :: t

/-- ASCII decimal digit test (Python `str.isdigit` per character). -/
def isDigitChar (c : Char) : Bool := 48 ≤ c.toNat && c.toNat ≤ 57

/-- Digit value of a digit character. -/
def digitVal (c : Char) : ℕ := c.toNat - 48

/-- Value of a most-significant-first digit string (Python `int`
after an `isdigit` check). -/
def natVal (s : List Char) : ℕ :=
  s.foldl (fun a c => 10 * a + digitVal c) 0

/-- Python `str.upper` for ASCII strings. -/
def upper (cs : List Char) : List Char := cs.map Char.toUpper

end PyStr

namespace VTKConverter

/-- One coordinate line of `VTKConverter._create_simple_vtk_file`:
the code writes the line `"{p[0]} {p[1]} {p[2]}"`. -/
def coordLineToks {α : Type} (p : α × α × α) : List (Tok α) :=
  [.flt p.1, .flt p.2.1, .flt p.2.2]

/-- The connectivity line of `_create_simple_vtk_file`: the code writes
`"{n_points}"` followed by `" {i}"` for `i in range(n_points)`. -/
def connLineToks (α : Type) (n : ℕ) : List (Tok α) :=
  .int n :: (List.range n).map fun j => .int (Int.ofNat j)

/-- `VTKConverter._create_simple_vtk_file`: the library-free VTK ASCII
writer, line by line in the order of the source's `f.write` calls.
The numeral in the version header is inert for the reader and is kept
as a word token. -/
def createSimpleVtkFile {α : Type} (points : List (α × α × α))
    (energy_values : List α) : List (List (Tok α)) :=
  [[.word "#", .word "vtk", .word "DataFile", .word "Version", .word "3.0"],
   [.word "Drill", .word "path", .word "data"],
   [.word "ASCII"],
   [.word "DATASET", .word "POLYDATA"],
   [.word "POINTS", .int points.length, .word "float"]]
  ++ points.map coordLineToks
  ++ [[.word "LINES", .int 1, .int (points.length + 1)],
      connLineToks α points.length]
  ++ [[.word "POINT_DATA", .int points.length],
      [.word "SCALARS", .word "Energy", .word "float", .int 1],
      [.word "LOOKUP_TABLE", .word "default"]]
  ++ energy_values.map fun e => [.flt e]

end VTKConverter

namespace VtkSpec

/-- The legacy VTK ASCII PolyData grammar of spec section 4.4, written
from the spec's words: header line, title line, `ASCII`,
`DATASET POLYDATA`, `POINTS n float` with `n` coordinate lines of three
numbers, `LINES 1 n+1` with the single connectivity line
`n 0 1 ... n-1`, then `POINT_DATA n`, `SCALARS name float 1`,
`LOOKUP_TABLE default` and `n` scalar-value lines. -/
def grammarFile {α : Type} (title : List (Tok α)) (scalarFieldName : String)
    (points : List (α × α × α)) (scalars : List α) : List (List (Tok α)) :=
  let n := points.length
  [[.word "#", .word "vtk", .word "DataFile", .word "Version", .word "3.0"]]
  ++ [title]
  ++ [[.word "ASCII"]]
  ++ [[.word "DATASET", .word "POLYDATA"]]
  ++ [[.word "POINTS", .int n, .word "float"]]
  ++ points.map (fun p => [.flt p.1, .flt p.2.1, .flt p.2.2])
  ++ [[.word "LINES", .int 1, .int (n + 1)]]
  ++ [[.int n] ++ (List.range n).map fun j => .int (Int.ofNat j)]
  ++ [[.word "POINT_DATA", .int n]]
  ++ [[.word "SCALARS", .word scalarFieldName, .word "float", .int 1]]
  ++ [[.word "LOOKUP_TABLE", .word "default"]]
  ++ scalars.map fun v => [.flt v]

end VtkSpec

namespace VTKSimpleRenderer

/-- Python `float(tok)`: succeeds on integer and float literals. -/
def floatOfTok : Tok ℚ → Option ℚ
  | .int z => some (z : ℚ)
  | .flt q => some q
  | .word _ => none

/-- Python `int(tok)`: succeeds on integer literals only (Python
`int("5.0")` raises `ValueError`). -/
def intOfTok : Tok ℚ → Option ℤ
  | .int z => some z
  | .flt _ => none
  | .word _ => none

/-- Model of `re.search(kw + r'\s+(\d+)', content)`: scan the token
stream (whitespace includes newlines, so the count may follow on a
later line) for the first keyword token followed by a nonnegative
integer literal. -/
def findCount (kw : String) : List (Tok ℚ) → Option ℕ
  | [] => none
  | .word s :: .int z :: rest =>
      if s = kw ∧ 0 ≤ z then some z.toNat else findCount kw (.int z :: rest)
  | _ :: rest => findCount kw rest

/-- Model of `re.search(kw + r'\s+(\d+)\s+(\d+)', content)`. -/
def findCount2 (kw : String) : List (Tok ℚ) → Option (ℕ × ℕ)
  | [] => none
  | .word s :: .int z1 :: .int z2 :: rest =>
      if s = kw ∧ 0 ≤ z1 ∧ 0 ≤ z2 then some (z1.toNat, z2.toNat)
      else findCount2 kw (.int z1 :: .int z2 :: rest)
  | _ :: rest => findCount2 kw rest

/-- Model of `re.search(r'SCALARS\s+(\w+)', content)`: the first
`SCALARS` token followed by a word token gives the scalar name. -/
def scanScalarName : List (Tok ℚ) → Option String
  | [] => none
  | .word s :: .word t :: rest =>
      if s = "SCALARS" then some t else scanScalarName (.word t :: rest)
  | _ :: rest => scanScalarName rest

/-- Whether a line contains the keyword as a token: models
`content.find(kw)` landing inside this line (in writer output the
keywords occur only as standalone tokens). -/
def lineHasWord (kw : String) (l : List (Tok ℚ)) : Bool :=
  l.any fun t => t = .word kw

/-- The lines strictly after the first line containing the keyword:
models `content.find('\n', content.find(kw)) + 1` followed by
`.split('\n')`. -/
def linesAfter (kw : String) : List (List (Tok ℚ)) → Option (List (List (Tok ℚ)))
  | [] => none
  | l :: ls => if lineHasWord kw l then some ls else linesAfter kw ls

/-- The suffix of the content starting with the first line containing
the keyword (used for the `content.find('LOOKUP_TABLE', scalar_start)`
search that begins at the `SCALARS` position). -/
def linesFrom (kw : String) : List (List (Tok ℚ)) → Option (List (List (Tok ℚ)))
  | [] => none
  | l :: ls => if lineHasWord kw l then some (l :: ls) else linesFrom kw ls

/-- The inner loop of the point reader: one line's tokens are consumed
in chunks of three (`for i in range(0, len(values), 3)` with the guard
`i + 2 < len(values)`); a chunk that fails `float` conversion is
skipped; at most `fuel` points are taken (the reader breaks once
`point_count >= num_points`). -/
def readTriples : List (Tok ℚ) → ℕ → List (ℚ × ℚ × ℚ)
  | _, 0 => []
  | a :: b :: c :: rest, Nat.succ n =>
      match floatOfTok a, floatOfTok b, floatOfTok c with
      | some x, some y, some z => (x, y, z) :: readTriples rest n
      | _, _, _ => readTriples rest (Nat.succ n)
  | _, _ => []

/-- The outer loop of the point reader over the data lines. -/
def readPointsLines : List (List (Tok ℚ)) → ℕ → List (ℚ × ℚ × ℚ)
  | [], _ => []
  | _, 0 => []
  | l :: ls, Nat.succ n =>
      let ps := readTriples l (Nat.succ n)
      ps ++ readPointsLines ls (Nat.succ n - ps.length)

/-- All tokens converted by Python `int`; `none` models the
`ValueError` raised inside the list comprehension. -/
def allInts : List (Tok ℚ) → Option (List ℤ)
  | [] => some []
  | t :: rest =>
      match intOfTok t, allInts rest with
      | some z, some zs => some (z :: zs)
      | _, _ => none

/-- One line of the connectivity reader: needs at least two tokens,
reads `num_vertices = int(values[0])`, then
`[int(values[i]) for i in range(1, min(len(values), num_vertices+1))]`,
and keeps the cell only when exactly `num_vertices` indices were read. -/
def parseLineCell (l : List (Tok ℚ)) : Option (List ℤ) :=
  if l.length < 2 then none
  else
    match l with
    | [] => none
    | t0 :: rest =>
        match intOfTok t0 with
        | none => none
        | some nv =>
            if nv < 0 then none
            else
              match allInts (rest.take (min rest.length nv.toNat)) with
              | none => none
              | some vs => if vs.length = nv.toNat then some vs else none

/-- The connectivity reader over the lines after the `LINES` header;
a line that yields no cell is skipped without counting. -/
def readVertexLists : List (List (Tok ℚ)) → ℕ → List (List ℤ)
  | [], _ => []
  | _, 0 => []
  | l :: ls, Nat.succ n =>
      match parseLineCell l with
      | some vs => vs :: readVertexLists ls n
      | none => readVertexLists ls (Nat.succ n)

/-- The inner loop of the scalar reader: whitespace-delimited tokens,
non-floats skipped, stopping at the cap. -/
def readFloats : List (Tok ℚ) → ℕ → List ℚ
  | _, 0 => []
  | [], _ => []
  | t :: rest, Nat.succ n =>
      match floatOfTok t with
      | some q => q :: readFloats rest n
      | none => readFloats rest (Nat.succ n)

/-- The outer loop of the scalar reader over the data lines. -/
def readScalarLines : List (List (Tok ℚ)) → ℕ → List ℚ
  | [], _ => []
  | _, 0 => []
  | l :: ls, Nat.succ n =>
      let qs := readFloats l (Nat.succ n)
      qs ++ readScalarLines ls (Nat.succ n - qs.length)

/-- The observable result of `VTKSimpleRenderer.parse_vtk_file` on a
renderer in its freshly constructed state (`points`, `lines`,
`scalars` empty): the returned flag and the three populated fields. -/
structure ParseResult where
  ok : Bool
  points : List (ℚ × ℚ × ℚ)
  lines : List (List ℤ)
  scalars : Option (String × List ℚ)
deriving DecidableEq, Repr

/-- `VTKSimpleRenderer.parse_vtk_file`, as a total function on the
tokenised file content.  The body of the Python method is wrapped in a
blanket `try/except` returning `False`, so the model is total and
returns `ok := false` exactly where the code does. -/
def parse_vtk_file (content : List (List (Tok ℚ))) : ParseResult :=
  match findCount "POINTS" content.flatten with
  | none => { ok := false, points := [], lines := [], scalars := none }
  | some numPoints =>
      match linesAfter "POINTS" content with
      | none => { ok := false, points := [], lines := [], scalars := none }
      | some pdata =>
          let pts := readPointsLines pdata numPoints
          let cells :=
            match findCount2 "LINES" content.flatten with
            | none => []
            | some nl =>
                match linesAfter "LINES" content with
                | none => []
                | some ldata => readVertexLists ldata nl.1
          let scal :=
            match scanScalarName content.flatten with
            | none => none
            | some name =>
                match linesFrom "SCALARS" content with
                | none => none
                | some suffix =>
                    match linesAfter "LOOKUP_TABLE" suffix with
                    | none => none
                    | some sdata =>
                        let vals := readScalarLines sdata numPoints
                        if vals = [] then none
                        else some (name, vals.take numPoints)
          { ok := true, points := pts, lines := cells, scalars := scal }

/-- `pat` occurs as a contiguous run inside `l`. -/
def listHasInfix (pat : List Char) : List Char → Bool
  | [] => pat.isEmpty
  | c :: rest => pat.isPrefixOf (c :: rest) || listHasInfix pat rest

/-- The token's rendering contains the characters `POINTS`: the only
tokens at which `content.find('POINTS')` or the `POINTS` regex could
ever match (numeric literals never contain letters). -/
def mentionsPOINTS : Tok ℚ → Bool
  | .word s => listHasInfix ("POINTS".data) s.data
  | _ => false

end VTKSimpleRenderer

namespace SurveyPointCalculator

/-!
`SurveyPointCalculator.format_survey_point` renders a survey point as
`"{int(c)}+{e}"` (with the minor part rendered as an integer when it is
integer-valued), and `parse_survey_point` splits on `'+'` and converts
both parts with Python `float`.  Strings are modelled as `List Char`;
numbers as `ℚ` (a Python float is a dyadic rational, and its `repr`
is an exact finite decimal for it, so the model renders an exact
finite decimal of the value and parses decimals exactly).
-/

/-- The decimal digit character for a digit value. -/
def digitChar (d : ℕ) : Char := Char.ofNat (48 + d)

/-- The base-10 digits of `n`, least significant first, by repeated
division; `fuel ≥ n` makes the recursion structural. -/
def digitsRevFuel : ℕ → ℕ → List ℕ
  | _, 0 => []
  | 0, _ => []
  | Nat.succ f, Nat.succ m =>
      (Nat.succ m) % 10 :: digitsRevFuel f ((Nat.succ m) / 10)

/-- Decimal rendering of a natural number, as Python `str` does. -/
def renderNat (n : ℕ) : List Char :=
  if n = 0 then ['0'] else ((digitsRevFuel n n).map digitChar).reverse

/-- Decimal rendering of an integer (Python `str(int)`). -/
def renderInt (z : ℤ) : List Char :=
  if z < 0 then '-' :: renderNat z.natAbs else renderNat z.toNat

/-- The fractional digit block of a fixed-point decimal: the digits of
`f` padded on the left with zeros to exactly `k` places (`f < 10^k`). -/
def fracRender (k f : ℕ) : List Char :=
  List.replicate (k - (digitsRevFuel f f).length) '0'
    ++ ((digitsRevFuel f f).map digitChar).reverse

/-- Exact finite-decimal rendering of a rational whose denominator
divides `10^k` with `k := e.den` (true of every Python float value):
sign, integer part, `'.'`, then `k` fractional digits.  Python prints
the shortest decimal denoting the same float; both spellings parse
back to the same value, which is all the round trip depends on. -/
def renderDec (e : ℚ) : List Char :=
  let k := e.den
  let m : ℤ := (e * 10 ^ k).num
  let n := m.natAbs
  let core := renderNat (n / 10 ^ k) ++ '.' :: fracRender k (n % 10 ^ k)
  if m < 0 then '-' :: core else core

/-- `SurveyPointCalculator.format_survey_point`: the major index is
integer-valued (rendered via `int(c_value)`); zero minor renders as
`"+0"`, an integer-valued minor without a decimal point, any other
minor as its decimal value. -/
def format_survey_point (c : ℤ) (e : ℚ) : List Char :=
  if e = 0 then renderInt c ++ '+' :: ['0']
  else if e.den = 1 then renderInt c ++ '+' :: renderInt e.num
  else renderInt c ++ '+' :: renderDec e

open PyStr (splitOnChar isDigitChar digitVal natVal)

/-- Python `float` on an unsigned decimal: digits with at most one
point, at least one digit overall (exponents and specials are outside
the model — the formatter never produces them for survey points). -/
def parseUnsigned (s : List Char) : Option ℚ :=
  match splitOnChar '.' s with
  | [ds] =>
      if ds ≠ [] ∧ ds.all isDigitChar then some ((natVal ds : ℚ)) else none
  | [ds, fs] =>
      if (ds ≠ [] ∨ fs ≠ []) ∧ ds.all isDigitChar ∧ fs.all isDigitChar then
        some ((natVal ds : ℚ) + (natVal fs : ℚ) / 10 ^ fs.length)
      else none
  | _ => none

/-- Python `float` on a possibly signed decimal string. -/
def parseFloat (s : List Char) : Option ℚ :=
  match s with
  | [] => none
  | c :: rest =>
      if c = '-' then (parseUnsigned rest).map (fun q => -q)
      else if c = '+' then parseUnsigned rest
      else parseUnsigned (c :: rest)

/-- `SurveyPointCalculator.parse_survey_point`: requires a `'+'`,
splits on `'+'` into exactly two parts, and converts both with
`float`; `none` models the raised `ValueError`. -/
def parse_survey_point (s : List Char) : Option (ℚ × ℚ) :=
  if s.contains '+' = false then none
  else
    match splitOnChar '+' s with
    | [a, b] =>
        match parseFloat a, parseFloat b with
        | some c, some e => some (c, e)
        | _, _ => none
    | _ => none

/-- `calculate_survey_point_value` with the default conversion factor:
`c * 20 + e`. -/
def calculate_survey_point_value (c e : ℚ) : ℚ := c * 20 + e

/-- `calculate_distance_from_entrance` with the default reference point
`(C, E) = (255, 4)`: `reference_value - current`, where
`reference_value = 255 * 20 + 4`. -/
def calculate_distance_from_entrance (c e : ℚ) : ℚ :=
  (255 * 20 + 4) - calculate_survey_point_value c e

end SurveyPointCalculator

namespace VTKConverter

/-- The error raised by the converter: `create_vtk_file` raises
`ValueError("データ点が不足しています（最低2点必要）")` — the spec's
`InsufficientDataError` — when fewer than two points are supplied. -/
inductive ConvError where
  | insufficientData
deriving DecidableEq, Repr

/-- `VTKConverter.calculate_3d_points`, with the trigonometric
functions and pi of Python's `math` module as parameters: converts
`angle` to radians once and appends one 3D point per drilling length,
`x = x_base - length*sin, y = y_base + length*cos, z = z_elevation`. -/
def calculate_3d_points {α : Type} [Field α] (fsin fcos : α → α) (pi : α)
    (drilling_lengths : List α) (x_base y_base z_elevation angle : α) :
    List (α × α × α) :=
  let angle_rad := angle * pi / 180
  drilling_lengths.foldl
    (fun points length =>
      points ++ [(x_base - length * fsin angle_rad,
                  y_base + length * fcos angle_rad,
                  z_elevation)])
    []

/-- `VTKConverter.create_vtk_file` on the library-free path
(`VTK_AVAILABLE == False`; the `vtk` library is not part of this
repository): raises for fewer than two points before writing anything,
otherwise writes the simple VTK file and returns `True`. -/
def create_vtk_file {α : Type} (points : List (α × α × α))
    (energy_values : List α) :
    Except ConvError (List (List (Tok α)) × Bool) :=
  if points.length < 2 then .error .insufficientData
  else .ok (createSimpleVtkFile points energy_values, true)

/-- The companion CSV written by `VTKConverter.save_computed_csv`:
a comment row naming the side and distance, the fixed header row, then
one row per `zip(points, energy_values)` pair. -/
structure CompanionCsv (α : Type) where
  lmr : String
  distance : α
  header : List String
  rows : List (α × α × α × α)
deriving DecidableEq, Repr

/-- `VTKConverter.save_computed_csv` as a pure content builder. -/
def save_computed_csv {α : Type} (points : List (α × α × α))
    (energy_values : List α) (lmr_type : String) (distance : α) :
    CompanionCsv α :=
  { lmr := lmr_type
    distance := distance
    header := ["X(m)", "Y(m)", "Z:標高(m)", "穿孔エネルギー"]
    rows := (points.zip energy_values).map fun pe =>
      (pe.1.1, pe.1.2.1, pe.1.2.2, pe.2) }

end VTKConverter

namespace LMRCoordinateCalculator

/-- The per-side base coordinates, reference distance, direction angle
and per-side elevations that the source reads from configuration
(defaults hard-coded in `LMRCoordinateCalculator` and
`VTKConverter.Z_ELEVATIONS`). -/
structure ReferenceFrame (α : Type) where
  refQ : α
  refR : α
  refS : α
  refT : α
  refU : α
  refV : α
  reference_distance : α
  direction_angle : α
  zL : α
  zM : α
  zR : α
deriving DecidableEq, Repr

/-- The six per-side coordinates returned by `calculate_coordinates`
(the source returns a dict also carrying the angle and distance). -/
structure Coords (α : Type) where
  lX : α
  lY : α
  mX : α
  mY : α
  rX : α
  rY : α
  direction : α
  distance : α
deriving DecidableEq, Repr

/-- Python `round(x, 3)`: the nearest multiple of `10 ^ (-3)`.
Mathlib's `round` rounds half up while Python rounds half to even; the
theorems below use only that the result is an integer multiple of
`1/1000` within `1/2000` of the argument, which holds for both. -/
def round3 {α : Type} [LinearOrderedField α] [FloorRing α] (x : α) : α :=
  (round (x * 1000) : ℤ) / 1000

/-- `LMRCoordinateCalculator.calculate_coordinates`: the distance
difference in millimetres, the angle `(90 - direction_angle)·π/180`,
one cosine and one sine evaluation, and the six rounded coordinates
reproducing the spreadsheet formulas. -/
def calculate_coordinates {α : Type} [LinearOrderedField α] [FloorRing α]
    (fcos fsin : α → α) (pi : α) (rf : ReferenceFrame α)
    (distance_from_entrance : α) : Coords α :=
  let distance_diff := (distance_from_entrance - rf.reference_distance) * 1000
  let angle_rad := (90 - rf.direction_angle) * pi / 180
  let cos_val := fcos angle_rad
  let sin_val := fsin angle_rad
  { lX := round3 ((-distance_diff * cos_val + rf.refQ) / 1000)
    lY := round3 ((distance_diff * sin_val + rf.refR) / 1000)
    mX := round3 ((-distance_diff * cos_val + rf.refS) / 1000)
    mY := round3 ((distance_diff * sin_val + rf.refT) / 1000)
    rX := round3 ((-distance_diff * cos_val + rf.refU) / 1000)
    rY := round3 ((distance_diff * sin_val + rf.refV) / 1000)
    direction := rf.direction_angle
    distance := distance_from_entrance }

/-- The default `ReferenceFrame` hard-coded in the source:
`DEFAULT_REFERENCE_COORDS`, `REFERENCE_DISTANCE = 967`,
`DIRECTION_ANGLE = 65.588` and `Z_ELEVATIONS`. -/
noncomputable def defaultFrame : ReferenceFrame ℝ :=
  { refQ := -660689.7596
    refR := 733147.0996
    refS := -658622.871
    refT := 737699.9102
    refU := -656556.8108
    refV := 742253.072
    reference_distance := 967
    direction_angle := 65.588
    zL := 17.3
    zM := 21.3
    zR := 17.3 }

/-- `calculate_coordinates` at the fixed default direction angle and
reference distance, with the real cosine and sine. -/
noncomputable def calcDefault (d : ℝ) : Coords ℝ :=
  calculate_coordinates Real.cos Real.sin Real.pi defaultFrame d

/-- The pre-rounding affine core of `calculate_coordinates` (the
argument of each `round` call, used to state the amended affinity
property). -/
def coordsRaw {α : Type} [LinearOrderedField α]
    (fcos fsin : α → α) (pi : α) (rf : ReferenceFrame α)
    (distance_from_entrance : α) : Coords α :=
  let distance_diff := (distance_from_entrance - rf.reference_distance) * 1000
  let angle_rad := (90 - rf.direction_angle) * pi / 180
  let cos_val := fcos angle_rad
  let sin_val := fsin angle_rad
  { lX := (-distance_diff * cos_val + rf.refQ) / 1000
    lY := (distance_diff * sin_val + rf.refR) / 1000
    mX := (-distance_diff * cos_val + rf.refS) / 1000
    mY := (distance_diff * sin_val + rf.refT) / 1000
    rX := (-distance_diff * cos_val + rf.refU) / 1000
    rY := (distance_diff * sin_val + rf.refV) / 1000
    direction := rf.direction_angle
    distance := distance_from_entrance }

/-- `coordsRaw` at the default configuration. -/
noncomputable def coordsRawDefault (d : ℝ) : Coords ℝ :=
  coordsRaw Real.cos Real.sin Real.pi defaultFrame d

end LMRCoordinateCalculator

namespace VTKConverter

open LMRCoordinateCalculator

/-- The three borehole sides. -/
inductive LMR where
  | L
  | M
  | R
deriving DecidableEq, Repr

/-- The side letter used in file names and CSV comments. -/
def LMR.name : LMR → String
  | .L => "L"
  | .M => "M"
  | .R => "R"

/-- `VTKConverter.get_coordinates_for_lmr`: runs the coordinate
calculator and picks the side's base coordinates, returning
`(x_base, y_base, angle, z_elevation)`. -/
def get_coordinates_for_lmr {α : Type} [LinearOrderedField α] [FloorRing α]
    (fcos fsin : α → α) (pi : α) (rf : ReferenceFrame α) (lmr : LMR)
    (distance_from_entrance : α) : α × α × α × α :=
  let c := calculate_coordinates fcos fsin pi rf distance_from_entrance
  match lmr with
  | .L => (c.lX, c.lY, rf.direction_angle, rf.zL)
  | .M => (c.mX, c.mY, rf.direction_angle, rf.zM)
  | .R => (c.rX, c.rY, rf.direction_angle, rf.zR)

/-- A file written during one `convert_csv_to_vtk` call, in write
order. -/
inductive FileEvent (α : Type) where
  | wroteCsv (content : CompanionCsv α)
  | wroteVtk (content : List (List (Tok α)))
deriving DecidableEq, Repr

/-- `VTKConverter.convert_csv_to_vtk` after the CSV columns have been
read (file I/O and column resolution are collaborator work): computes
the base coordinates, the 3D points, then writes the companion CSV,
then creates the VTK file — which raises `InsufficientDataError` on
fewer than two points.  The result records the files written, in
order, and the final outcome. -/
def convert_csv_to_vtk {α : Type} [LinearOrderedField α] [FloorRing α]
    (fsin fcos : α → α) (pi : α) (rf : ReferenceFrame α)
    (drilling_lengths energy_values : List α) (lmr : LMR)
    (distance_from_entrance : α) :
    List (FileEvent α) × Except ConvError Unit :=
  let q := get_coordinates_for_lmr fcos fsin pi rf lmr distance_from_entrance
  let points := calculate_3d_points fsin fcos pi drilling_lengths
    q.1 q.2.1 q.2.2.2 q.2.2.1
  let csv := save_computed_csv points energy_values lmr.name
    distance_from_entrance
  match create_vtk_file points energy_values with
  | .error e => ([.wroteCsv csv], .error e)
  | .ok w => ([.wroteCsv csv, .wroteVtk w.1], .ok ())

end VTKConverter

namespace VTKConverter

open PyStr (splitOnChar isDigitChar natVal upper)

/-- `os.path.basename`: the part after the last `\'/\'`. -/
def basenameL (cs : List Char) : List Char :=
  (splitOnChar '/' cs).getLastD cs

/-- `os.path.splitext` for ordinary names (no leading-dot special
case, which no drill CSV name exercises): split at the last `\'.\'`. -/
def splitextL (cs : List Char) : List Char × List Char :=
  let parts := splitOnChar '.' cs
  if parts.length ≤ 1 then (cs, [])
  else (List.intercalate ['.'] parts.dropLast, '.' :: parts.getLastD [])

/-- The first part whose upper-case form is `L`, `M` or `R`
(the `for part in parts` loops of `detect_lmr_type`). -/
def findLMRPart (ps : List (List Char)) : Option (List Char) :=
  (ps.find? fun p =>
      upper p = ['L'] || upper p = ['M'] || upper p = ['R']).map upper

/-- Python `sub in s`. -/
def containsSub (s sub : List Char) : Bool :=
  VTKSimpleRenderer.listHasInfix sub s

/-- `VTKConverter.detect_lmr_type`: checks the underscore-separated
parts, then the hyphen-separated parts, then delimited substrings of
the upper-cased name, then suffixes (`pat.replace('_','')
.replace('-','')` is the removal of the delimiters, `pat[-1]` the last
character); `none` when nothing matches. -/
def detect_lmr_type (filename : String) : Option String :=
  let name := (splitextL (basenameL filename.data)).1
  match findLMRPart (splitOnChar '_' name) with
  | some r => some (String.mk r)
  | none =>
  match findLMRPart (splitOnChar '-' name) with
  | some r => some (String.mk r)
  | none =>
  let nu := upper name
  match [['_', 'L', '_'], ['_', 'M', '_'], ['_', 'R', '_'],
         ['-', 'L', '-'], ['-', 'M', '-'], ['-', 'R', '-']].find?
      (fun pat => containsSub nu pat) with
  | some pat =>
      some (String.mk (pat.filter fun c => c ≠ '_' ∧ c ≠ '-'))
  | none =>
  match [['_', 'L'], ['_', 'M'], ['_', 'R'],
         ['-', 'L'], ['-', 'M'], ['-', 'R']].find?
      (fun pat => pat.isSuffixOf nu) with
  | some pat =>
      match pat.getLast? with
      | some c => some (String.mk [c])
      | none => none
  | none => none

/-- Python `str.isdigit`. -/
def isDigits (cs : List Char) : Bool :=
  !cs.isEmpty && cs.all isDigitChar

/-- Python `str.zfill(2)`. -/
def zfill2 (cs : List Char) : List Char :=
  List.replicate (2 - cs.length) '0' ++ cs

/-- `VTKConverter.generate_vtk_filename`: side letter from
`detect_lmr_type` (else `"X"`), date `YY.MM.DD` when the first three
underscore-separated tokens are a plausible year, month and day, else
`00.00.00`, assembled as `Drill-<side>_ana_<date>.vtk`. -/
def generate_vtk_filename (csv_file : String) : String :=
  let name := (splitextL (basenameL csv_file.data)).1
  let lmr := (detect_lmr_type csv_file).getD "X"
  let parts := splitOnChar '_' name
  let date_str :=
    if parts.length ≥ 3 then
      let year := parts.getD 0 []
      let month := parts.getD 1 []
      let day := parts.getD 2 []
      if year.length = 4 && isDigits year && isDigits month && isDigits day
          && 1 ≤ natVal month && natVal month ≤ 12
          && 1 ≤ natVal day && natVal day ≤ 31 then
        String.mk (year.drop (year.length - 2)) ++ "." ++
          String.mk (zfill2 month) ++ "." ++ String.mk (zfill2 day)
      else "00.00.00"
    else "00.00.00"
  "Drill-" ++ lmr ++ "_ana_" ++ date_str ++ ".vtk"

end VTKConverter

/-! ## Theorems -/

section Helpers

open VTKConverter

/-- A `for`-loop appending one element per input equals `map`. -/
theorem foldl_append_singleton_eq_map {α β : Type} (f : α → β) (L : List α)
    (acc : List β) :
    L.foldl (fun ps x => ps ++ [f x]) acc = acc ++ L.map f := by
  induction L generalizing acc with
  | nil => simp
  | cons x xs ih => simp [ih]

/-- `calculate_3d_points` in closed form. -/
theorem calculate_3d_points_eq_map {α : Type} [Field α] (fsin fcos : α → α)
    (pi : α) (ds : List α) (bx b_y z a : α) :
    calculate_3d_points fsin fcos pi ds bx b_y z a =
      ds.map fun d =>
        (bx - d * fsin (a * pi / 180), b_y + d * fcos (a * pi / 180), z) := by
  unfold calculate_3d_points
  rw [foldl_append_singleton_eq_map]
  simp

end Helpers

/-- Claim C9: `generate_vtk_filename` maps `2025_08_27_07_24_47_L.csv`
to `Drill-L_ana_25.08.27.vtk`, and `L_processed` (no parsable date in
its first three underscore-separated tokens) to
`Drill-L_ana_00.00.00.vtk`. -/
theorem claim9_generate_vtk_filename_examples :
    VTKConverter.generate_vtk_filename "2025_08_27_07_24_47_L.csv"
        = "Drill-L_ana_25.08.27.vtk" ∧
    VTKConverter.generate_vtk_filename "L_processed"
        = "Drill-L_ana_00.00.00.vtk" := by
  constructor <;> rfl

/-- Claim C2: for every list of `N ≥ 2` points and `N` scalar values,
the library-free writer's output conforms exactly to the legacy VTK
ASCII PolyData grammar of spec section 4.4 (with title
`Drill path data` and scalar field name `Energy`). -/
theorem claim2_writer_conforms_to_grammar {α : Type}
    (points : List (α × α × α)) (energy_values : List α)
    (h2 : 2 ≤ points.length)
    (hlen : energy_values.length = points.length) :
    VTKConverter.createSimpleVtkFile points energy_values =
      VtkSpec.grammarFile [.word "Drill", .word "path", .word "data"]
        "Energy" points energy_values := by
  have h1 : (VTKConverter.coordLineToks : α × α × α → List (Tok α)) =
      fun p => [Tok.flt p.1, Tok.flt p.2.1, Tok.flt p.2.2] := rfl
  simp only [VTKConverter.createSimpleVtkFile, VtkSpec.grammarFile,
    VTKConverter.connLineToks, h1, List.singleton_append, List.cons_append,
    List.nil_append, List.append_assoc]

/-- Witness for C2 at two concrete points. -/
theorem claim2_witness :
    2 ≤ ([((1 : ℚ), 2, 3), (4, 5, 6)]).length ∧
    ([(7 : ℚ), 8]).length = ([((1 : ℚ), 2, 3), (4, 5, 6)]).length ∧
    VTKConverter.createSimpleVtkFile [((1 : ℚ), 2, 3), (4, 5, 6)] [7, 8] =
      VtkSpec.grammarFile [.word "Drill", .word "path", .word "data"]
        "Energy" [((1 : ℚ), 2, 3), (4, 5, 6)] [7, 8] :=
  ⟨by decide, by decide,
    claim2_writer_conforms_to_grammar _ _ (by decide) (by decide)⟩

/-- Claim C4: `create_vtk_file` fails with the insufficient-data error
(writing nothing) on every document with fewer than two points, and
succeeds, returning the written file and `True`, on every document
with at least two points and matching scalar values. -/
theorem claim4_create_vtk_file_min_two_points {α : Type}
    (points : List (α × α × α)) (energy_values : List α) :
    (points.length < 2 →
      VTKConverter.create_vtk_file points energy_values =
        .error .insufficientData) ∧
    (2 ≤ points.length → energy_values.length = points.length →
      VTKConverter.create_vtk_file points energy_values =
        .ok (VTKConverter.createSimpleVtkFile points energy_values, true)) := by
  constructor
  · intro h
    unfold VTKConverter.create_vtk_file
    rw [if_pos h]
  · intro h _
    unfold VTKConverter.create_vtk_file
    rw [if_neg (by omega)]

/-- Witness for C4: one failing one-point document and one succeeding
two-point document. -/
theorem claim4_witness :
    (([((1 : ℚ), 2, 3)]).length < 2 ∧
      VTKConverter.create_vtk_file [((1 : ℚ), 2, 3)] [5] =
        .error .insufficientData) ∧
    (2 ≤ ([((1 : ℚ), 2, 3), (4, 5, 6)]).length ∧
      ([(7 : ℚ), 8]).length = ([((1 : ℚ), 2, 3), (4, 5, 6)]).length ∧
      VTKConverter.create_vtk_file [((1 : ℚ), 2, 3), (4, 5, 6)] [7, 8] =
        .ok (VTKConverter.createSimpleVtkFile
          [((1 : ℚ), 2, 3), (4, 5, 6)] [7, 8], true)) :=
  ⟨⟨by decide, (claim4_create_vtk_file_min_two_points _ _).1 (by decide)⟩,
   ⟨by decide, by decide,
    (claim4_create_vtk_file_min_two_points _ _).2 (by decide) (by decide)⟩⟩

/-- Counterexample to claim C5: `calculate_3d_points` does not fail on
fewer than two samples — on a single depth sample it returns a normal
one-point trajectory (here with stand-in trigonometric functions
`id`, so `sin 0 = cos 0 = 0`). -/
theorem claim5_counterexample :
    VTKConverter.calculate_3d_points (α := ℚ) (fun x => x) (fun x => x) 3
        [5] 1 2 9 0 = [(1, 2, 9)] ∧
    VTKConverter.calculate_3d_points (α := ℚ) (fun x => x) (fun x => x) 3
        [] 1 2 9 0 = [] := by
  constructor <;> rw [calculate_3d_points_eq_map] <;> norm_num

/-- Claim C5 (amended): `calculate_3d_points` performs no
minimum-sample check — it returns a trajectory of exactly the input
length for every input, including fewer than two samples; the
fewer-than-two-points `InsufficientDataError` is enforced downstream,
by `create_vtk_file`. -/
theorem claim5_no_min_check_in_calculate_3d_points {α : Type} [Field α]
    (fsin fcos : α → α) (pi : α) (ds : List α) (bx b_y z a : α) :
    (VTKConverter.calculate_3d_points fsin fcos pi ds bx b_y z a).length
        = ds.length ∧
    (∀ (points : List (α × α × α)) (es : List α), points.length < 2 →
      VTKConverter.create_vtk_file points es = .error .insufficientData) := by
  constructor
  · rw [calculate_3d_points_eq_map]
    simp
  · intro points es h
    unfold VTKConverter.create_vtk_file
    rw [if_pos h]

/-- Witness for the amended C5. -/
theorem claim5_witness :
    (VTKConverter.calculate_3d_points (α := ℚ) (fun x => x) (fun x => x) 3
        [5] 1 2 9 0).length = 1 ∧
    ([((1 : ℚ), 2, 3)]).length < 2 ∧
    VTKConverter.create_vtk_file [((1 : ℚ), 2, 3)] [4] =
      .error .insufficientData :=
  ⟨(claim5_no_min_check_in_calculate_3d_points
      (fun x => x) (fun x => x) 3 [5] 1 2 9 0).1,
   by decide,
   (claim5_no_min_check_in_calculate_3d_points (α := ℚ)
      (fun x => x) (fun x => x) 3 [5] 1 2 9 0).2 _ _ (by decide)⟩

/-- Claim C6: `calculate_3d_points` maps each depth sample `d` to
`(x_base - d·sin(angle·π/180), y_base + d·cos(angle·π/180),
z_elevation)`, preserving length and order; a sample of depth `0` maps
exactly to the base point `(x_base, y_base, z_elevation)`.  (The model
is pure, so the inputs are not mutated.) -/
theorem claim6_calculate_3d_points_formula {α : Type} [Field α]
    (fsin fcos : α → α) (pi : α) (ds : List α) (bx b_y z a : α) :
    VTKConverter.calculate_3d_points fsin fcos pi ds bx b_y z a =
      ds.map (fun d =>
        (bx - d * fsin (a * pi / 180), b_y + d * fcos (a * pi / 180), z)) ∧
    (VTKConverter.calculate_3d_points fsin fcos pi ds bx b_y z a).length
        = ds.length ∧
    ∀ i : ℕ, ds[i]? = some 0 →
      (VTKConverter.calculate_3d_points fsin fcos pi ds bx b_y z a)[i]? =
        some (bx, b_y, z) := by
  refine ⟨calculate_3d_points_eq_map fsin fcos pi ds bx b_y z a, ?_, ?_⟩
  · rw [calculate_3d_points_eq_map]
    simp
  · intro i hi
    rw [calculate_3d_points_eq_map, List.getElem?_map, hi]
    simp

/-- Witness for C6 at a two-sample list whose first depth is `0`. -/
theorem claim6_witness :
    (VTKConverter.calculate_3d_points (α := ℚ) (fun x => x) (fun x => x) 3
        [0, 4] 1 2 9 0)[0]? = some (1, 2, 9) :=
  (claim6_calculate_3d_points_formula
    (fun x => x) (fun x => x) 3 [0, 4] 1 2 9 0).2.2 0 (by rfl)

section ConvertOrder

open VTKConverter LMRCoordinateCalculator

/-- Claim C10: whenever `convert_csv_to_vtk` aborts with the
insufficient-data error (fewer than two trajectory points), the
companion CSV has already been fully written before the error: the
event trace consists of exactly the complete CSV write and no VTK
write. -/
theorem claim10_csv_survives_insufficient_data_abort {α : Type}
    [LinearOrderedField α] [FloorRing α] (fsin fcos : α → α) (pi : α)
    (rf : ReferenceFrame α) (ds es : List α) (lmr : LMR) (d : α)
    (h : ds.length < 2) :
    convert_csv_to_vtk fsin fcos pi rf ds es lmr d =
      ([FileEvent.wroteCsv (save_computed_csv
          (calculate_3d_points fsin fcos pi ds
            (get_coordinates_for_lmr fcos fsin pi rf lmr d).1
            (get_coordinates_for_lmr fcos fsin pi rf lmr d).2.1
            (get_coordinates_for_lmr fcos fsin pi rf lmr d).2.2.2
            (get_coordinates_for_lmr fcos fsin pi rf lmr d).2.2.1)
          es lmr.name d)],
        Except.error ConvError.insufficientData) := by
  have hlen : ∀ bx b_y z a : α,
      (calculate_3d_points fsin fcos pi ds bx b_y z a).length < 2 := by
    intro bx b_y z a
    rw [calculate_3d_points_eq_map]
    simpa using h
  simp only [convert_csv_to_vtk, create_vtk_file, hlen, if_true]

/-- Witness for C10: a one-sample conversion at a concrete rational
reference frame aborts but has written the CSV. -/
theorem claim10_witness :
    convert_csv_to_vtk (α := ℚ) (fun x => x) (fun x => x) 3
        ⟨1, 2, 3, 4, 5, 6, 967, 90, 10, 11, 12⟩ [1] [2] .L 5 =
      ([FileEvent.wroteCsv (save_computed_csv
          (calculate_3d_points (fun x => x) (fun x => x) 3 [1]
            (get_coordinates_for_lmr (α := ℚ) (fun x => x) (fun x => x) 3
              ⟨1, 2, 3, 4, 5, 6, 967, 90, 10, 11, 12⟩ .L 5).1
            (get_coordinates_for_lmr (α := ℚ) (fun x => x) (fun x => x) 3
              ⟨1, 2, 3, 4, 5, 6, 967, 90, 10, 11, 12⟩ .L 5).2.1
            (get_coordinates_for_lmr (α := ℚ) (fun x => x) (fun x => x) 3
              ⟨1, 2, 3, 4, 5, 6, 967, 90, 10, 11, 12⟩ .L 5).2.2.2
            (get_coordinates_for_lmr (α := ℚ) (fun x => x) (fun x => x) 3
              ⟨1, 2, 3, 4, 5, 6, 967, 90, 10, 11, 12⟩ .L 5).2.2.1)
          [2] LMR.L.name 5)],
        Except.error ConvError.insufficientData) :=
  claim10_csv_survives_insufficient_data_abort (fun x => x) (fun x => x) 3
    ⟨1, 2, 3, 4, 5, 6, 967, 90, 10, 11, 12⟩ [1] [2] .L 5 (by decide)

end ConvertOrder

section ReaderLemmas

open VTKConverter VTKSimpleRenderer

theorem readTriples_nil (n : ℕ) : readTriples [] n = [] := by
  cases n <;> rfl

theorem readTriples_coord (p : ℚ × ℚ × ℚ) (n : ℕ) :
    readTriples (coordLineToks p) (n + 1) = [p] := by
  simp [coordLineToks, readTriples, floatOfTok, readTriples_nil]

theorem readPointsLines_zero (L : List (List (Tok ℚ))) :
    readPointsLines L 0 = [] := by
  cases L <;> rfl

theorem readPointsLines_coordLines (pts : List (ℚ × ℚ × ℚ))
    (rest : List (List (Tok ℚ))) :
    readPointsLines (pts.map coordLineToks ++ rest) pts.length = pts := by
  induction pts with
  | nil => simp [readPointsLines_zero]
  | cons p ps ih =>
      simp only [List.map_cons, List.cons_append, List.length_cons]
      rw [readPointsLines, readTriples_coord]
      simp [ih]

theorem findCount_cons_of_ne (kw : String) (t : Tok ℚ) (rest : List (Tok ℚ))
    (h : t ≠ .word kw) :
    findCount kw (t :: rest) = findCount kw rest := by
  cases t with
  | int z =>
      cases rest with
      | nil => rfl
      | cons t2 rest2 => cases t2 <;> rfl
  | flt q =>
      cases rest with
      | nil => rfl
      | cons t2 rest2 => cases t2 <;> rfl
  | word s =>
      have hs : s ≠ kw := fun hh => h (by rw [hh])
      cases rest with
      | nil => rfl
      | cons t2 rest2 =>
          cases t2 with
          | int z => simp [findCount, hs]
          | flt q => rfl
          | word s2 => rfl

theorem findCount_append (kw : String) (L rest : List (Tok ℚ))
    (h : ∀ t ∈ L, t ≠ .word kw) :
    findCount kw (L ++ rest) = findCount kw rest := by
  induction L with
  | nil => rfl
  | cons t ts ih =>
      rw [List.cons_append, findCount_cons_of_ne kw t _ (h t (by simp))]
      exact ih fun u hu => h u (by simp [hu])

theorem findCount_found (kw : String) (z : ℤ) (rest : List (Tok ℚ))
    (hz : 0 ≤ z) :
    findCount kw (.word kw :: .int z :: rest) = some z.toNat := by
  simp [findCount, hz]

theorem findCount2_cons_of_ne (kw : String) (t : Tok ℚ) (rest : List (Tok ℚ))
    (h : t ≠ .word kw) :
    findCount2 kw (t :: rest) = findCount2 kw rest := by
  cases t with
  | int z =>
      cases rest with
      | nil => rfl
      | cons t2 rest2 =>
          cases t2 with
          | int z2 =>
              cases rest2 with
              | nil => rfl
              | cons t3 rest3 => cases t3 <;> rfl
          | flt q => rfl
          | word s2 => rfl
  | flt q =>
      cases rest with
      | nil => rfl
      | cons t2 rest2 =>
          cases t2 with
          | int z2 =>
              cases rest2 with
              | nil => rfl
              | cons t3 rest3 => cases t3 <;> rfl
          | flt q2 => rfl
          | word s2 => rfl
  | word s =>
      have hs : s ≠ kw := fun hh => h (by rw [hh])
      cases rest with
      | nil => rfl
      | cons t2 rest2 =>
          cases t2 with
          | int z2 =>
              cases rest2 with
              | nil => rfl
              | cons t3 rest3 =>
                  cases t3 with
                  | int z3 => simp [findCount2, hs]
                  | flt q3 => rfl
                  | word s3 => rfl
          | flt q2 => rfl
          | word s2 => rfl

theorem findCount2_append (kw : String) (L rest : List (Tok ℚ))
    (h : ∀ t ∈ L, t ≠ .word kw) :
    findCount2 kw (L ++ rest) = findCount2 kw rest := by
  induction L with
  | nil => rfl
  | cons t ts ih =>
      rw [List.cons_append, findCount2_cons_of_ne kw t _ (h t (by simp))]
      exact ih fun u hu => h u (by simp [hu])

theorem findCount2_found (kw : String) (z1 z2 : ℤ) (rest : List (Tok ℚ))
    (h1 : 0 ≤ z1) (h2 : 0 ≤ z2) :
    findCount2 kw (.word kw :: .int z1 :: .int z2 :: rest) =
      some (z1.toNat, z2.toNat) := by
  simp [findCount2, h1, h2]

theorem scanScalarName_cons_of_ne (t : Tok ℚ) (rest : List (Tok ℚ))
    (h : t ≠ .word "SCALARS") :
    scanScalarName (t :: rest) = scanScalarName rest := by
  cases t with
  | int z =>
      cases rest with
      | nil => rfl
      | cons t2 rest2 => cases t2 <;> rfl
  | flt q =>
      cases rest with
      | nil => rfl
      | cons t2 rest2 => cases t2 <;> rfl
  | word s =>
      have hs : s ≠ "SCALARS" := fun hh => h (by rw [hh])
      cases rest with
      | nil => rfl
      | cons t2 rest2 =>
          cases t2 with
          | int z => rfl
          | flt q => rfl
          | word s2 => simp [scanScalarName, hs]

theorem scanScalarName_append (L rest : List (Tok ℚ))
    (h : ∀ t ∈ L, t ≠ .word "SCALARS") :
    scanScalarName (L ++ rest) = scanScalarName rest := by
  induction L with
  | nil => rfl
  | cons t ts ih =>
      rw [List.cons_append, scanScalarName_cons_of_ne t _ (h t (by simp))]
      exact ih fun u hu => h u (by simp [hu])

theorem scanScalarName_found (t : String) (rest : List (Tok ℚ)) :
    scanScalarName (.word "SCALARS" :: .word t :: rest) = some t := by
  simp [scanScalarName]

theorem lineHasWord_coord (kw : String) (p : ℚ × ℚ × ℚ) :
    lineHasWord kw (coordLineToks p) = false := by
  simp [lineHasWord, coordLineToks]

theorem lineHasWord_conn (kw : String) (n : ℕ) :
    lineHasWord kw (connLineToks ℚ n) = false := by
  simp [lineHasWord, connLineToks]

theorem lineHasWord_energy (kw : String) (e : ℚ) :
    lineHasWord kw [Tok.flt e] = false := by
  simp [lineHasWord]

theorem linesAfter_cons_of_not (kw : String) (l : List (Tok ℚ))
    (ls : List (List (Tok ℚ))) (h : lineHasWord kw l = false) :
    linesAfter kw (l :: ls) = linesAfter kw ls := by
  simp [linesAfter, h]

theorem linesAfter_cons_of_has (kw : String) (l : List (Tok ℚ))
    (ls : List (List (Tok ℚ))) (h : lineHasWord kw l = true) :
    linesAfter kw (l :: ls) = some ls := by
  simp [linesAfter, h]

theorem linesAfter_append (kw : String) (L rest : List (List (Tok ℚ)))
    (h : ∀ l ∈ L, lineHasWord kw l = false) :
    linesAfter kw (L ++ rest) = linesAfter kw rest := by
  induction L with
  | nil => rfl
  | cons l ls ih =>
      rw [List.cons_append, linesAfter_cons_of_not kw l _ (h l (by simp))]
      exact ih fun u hu => h u (by simp [hu])

theorem linesFrom_cons_of_not (kw : String) (l : List (Tok ℚ))
    (ls : List (List (Tok ℚ))) (h : lineHasWord kw l = false) :
    linesFrom kw (l :: ls) = linesFrom kw ls := by
  simp [linesFrom, h]

theorem linesFrom_cons_of_has (kw : String) (l : List (Tok ℚ))
    (ls : List (List (Tok ℚ))) (h : lineHasWord kw l = true) :
    linesFrom kw (l :: ls) = some (l :: ls) := by
  simp [linesFrom, h]

theorem linesFrom_append (kw : String) (L rest : List (List (Tok ℚ)))
    (h : ∀ l ∈ L, lineHasWord kw l = false) :
    linesFrom kw (L ++ rest) = linesFrom kw rest := by
  induction L with
  | nil => rfl
  | cons l ls ih =>
      rw [List.cons_append, linesFrom_cons_of_not kw l _ (h l (by simp))]
      exact ih fun u hu => h u (by simp [hu])

theorem mem_coord_flatten (pts : List (ℚ × ℚ × ℚ)) (t : Tok ℚ)
    (ht : t ∈ (pts.map coordLineToks).flatten) : ∃ q, t = .flt q := by
  rw [List.mem_flatten] at ht
  obtain ⟨l, hl, htl⟩ := ht
  rw [List.mem_map] at hl
  obtain ⟨p, _, rfl⟩ := hl
  simp only [coordLineToks, List.mem_cons, List.mem_singleton] at htl
  rcases htl with h | h | h | h
  · exact ⟨p.1, h⟩
  · exact ⟨p.2.1, h⟩
  · exact ⟨p.2.2, h⟩
  · cases h

theorem mem_conn (n : ℕ) (t : Tok ℚ) (ht : t ∈ connLineToks ℚ n) :
    ∃ z, t = .int z := by
  simp only [connLineToks, List.mem_cons, List.mem_map] at ht
  rcases ht with h | ⟨j, _, rfl⟩
  · exact ⟨n, h⟩
  · exact ⟨Int.ofNat j, rfl⟩

end ReaderLemmas


section ReaderLemmas2

open VTKConverter VTKSimpleRenderer

theorem findCount_cons_word (kw s : String) (rest : List (Tok ℚ))
    (h : ¬ s = kw) :
    findCount kw (.word s :: rest) = findCount kw rest :=
  findCount_cons_of_ne kw _ rest (by simp [h])

theorem findCount_cons_int (kw : String) (z : ℤ) (rest : List (Tok ℚ)) :
    findCount kw (.int z :: rest) = findCount kw rest :=
  findCount_cons_of_ne kw _ rest (by simp)

theorem findCount_cons_flt (kw : String) (q : ℚ) (rest : List (Tok ℚ)) :
    findCount kw (.flt q :: rest) = findCount kw rest :=
  findCount_cons_of_ne kw _ rest (by simp)

theorem findCount2_cons_word (kw s : String) (rest : List (Tok ℚ))
    (h : ¬ s = kw) :
    findCount2 kw (.word s :: rest) = findCount2 kw rest :=
  findCount2_cons_of_ne kw _ rest (by simp [h])

theorem findCount2_cons_int (kw : String) (z : ℤ) (rest : List (Tok ℚ)) :
    findCount2 kw (.int z :: rest) = findCount2 kw rest :=
  findCount2_cons_of_ne kw _ rest (by simp)

theorem findCount2_cons_flt (kw : String) (q : ℚ) (rest : List (Tok ℚ)) :
    findCount2 kw (.flt q :: rest) = findCount2 kw rest :=
  findCount2_cons_of_ne kw _ rest (by simp)

theorem scanScalarName_cons_word (s : String) (rest : List (Tok ℚ))
    (h : ¬ s = "SCALARS") :
    scanScalarName (.word s :: rest) = scanScalarName rest :=
  scanScalarName_cons_of_ne _ rest (by simp [h])

theorem scanScalarName_cons_int (z : ℤ) (rest : List (Tok ℚ)) :
    scanScalarName (.int z :: rest) = scanScalarName rest :=
  scanScalarName_cons_of_ne _ rest (by simp)

theorem scanScalarName_cons_flt (q : ℚ) (rest : List (Tok ℚ)) :
    scanScalarName (.flt q :: rest) = scanScalarName rest :=
  scanScalarName_cons_of_ne _ rest (by simp)

theorem allInts_map_range (L : List ℕ) :
    allInts (L.map fun j => (Tok.int (Int.ofNat j) : Tok ℚ)) =
      some (L.map Int.ofNat) := by
  induction L with
  | nil => rfl
  | cons j js ih => simp only [List.map_cons, allInts, intOfTok, ih]

theorem parseLineCell_cons (t0 : Tok ℚ) (rest : List (Tok ℚ)) :
    parseLineCell (t0 :: rest) =
      if rest.length + 1 < 2 then none
      else
        match intOfTok t0 with
        | none => none
        | some nv =>
            if nv < 0 then none
            else
              match allInts (rest.take (min rest.length nv.toNat)) with
              | none => none
              | some vs => if vs.length = nv.toNat then some vs else none := by
  rfl

theorem parseLineCell_conn (n : ℕ) (h : 1 ≤ n) :
    parseLineCell (connLineToks ℚ n) =
      some ((List.range n).map Int.ofNat) := by
  have hT : ((List.range n).map fun j =>
      (Tok.int (Int.ofNat j) : Tok ℚ)).length = n := by simp
  have c1 : ¬ (n + 1 < 2) := by omega
  have c2 : ¬ ((n : ℤ) < 0) := by omega
  have htake : List.take n ((List.range n).map fun j =>
      (Tok.int (Int.ofNat j) : Tok ℚ)) =
      (List.range n).map fun j => (Tok.int (Int.ofNat j) : Tok ℚ) :=
    List.take_of_length_le (by simp)
  rw [connLineToks, parseLineCell_cons, hT, if_neg c1]
  simp only [intOfTok, if_neg c2, Int.toNat_natCast, hT, Nat.min_self,
    htake, allInts_map_range]
  simp

theorem readVertexLists_zero (L : List (List (Tok ℚ))) :
    readVertexLists L 0 = [] := by
  cases L <;> rfl

theorem readVertexLists_cons_some (l : List (Tok ℚ))
    (ls : List (List (Tok ℚ))) (vs : List ℤ) (n : ℕ)
    (h : parseLineCell l = some vs) :
    readVertexLists (l :: ls) (n + 1) = vs :: readVertexLists ls n := by
  simp [readVertexLists, h]

theorem readVertexLists_conn (n : ℕ) (h : 1 ≤ n)
    (rest : List (List (Tok ℚ))) :
    readVertexLists (connLineToks ℚ n :: rest) 1 =
      [(List.range n).map Int.ofNat] := by
  rw [show (1 : ℕ) = 0 + 1 from rfl,
    readVertexLists_cons_some _ _ _ _ (parseLineCell_conn n h),
    readVertexLists_zero]

theorem readFloats_nil (n : ℕ) : readFloats [] n = [] := by
  cases n <;> rfl

theorem readScalarLines_zero (L : List (List (Tok ℚ))) :
    readScalarLines L 0 = [] := by
  cases L <;> rfl

theorem readScalarLines_energies (es : List ℚ) :
    readScalarLines (es.map fun e => [Tok.flt e]) es.length = es := by
  induction es with
  | nil => rfl
  | cons e es ih =>
      simp only [List.map_cons, List.length_cons]
      rw [readScalarLines]
      have h1 : readFloats [Tok.flt e] (es.length + 1) = [e] := by
        simp [readFloats, floatOfTok, readFloats_nil]
      rw [h1]
      simp [ih]

theorem findCount_none_of_no_points (L : List (Tok ℚ))
    (h : ∀ t ∈ L, t ≠ .word "POINTS") :
    findCount "POINTS" L = none := by
  induction L with
  | nil => rfl
  | cons t ts ih =>
      rw [findCount_cons_of_ne _ t _ (h t (by simp))]
      exact ih fun u hu => h u (by simp [hu])

end ReaderLemmas2

section RoundTrip

open VTKConverter VTKSimpleRenderer

/-- Claim C1: writing any `N ≥ 2` points with `N` scalar values through
the library-free writer and re-parsing the text with
`VTKSimpleRenderer.parse_vtk_file` succeeds and returns exactly the
written points, the written scalar values under the name `Energy`, and
the single polyline `0, 1, ..., N-1`. -/
theorem claim1_write_read_round_trip (pts : List (ℚ × ℚ × ℚ)) (es : List ℚ)
    (h2 : 2 ≤ pts.length) (hlen : es.length = pts.length) :
    parse_vtk_file (createSimpleVtkFile pts es) =
      { ok := true
        points := pts
        lines := [(List.range pts.length).map Int.ofNat]
        scalars := some ("Energy", es) } := by
  have hcontent : createSimpleVtkFile pts es =
      [.word "#", .word "vtk", .word "DataFile", .word "Version", .word "3.0"] ::
      [.word "Drill", .word "path", .word "data"] ::
      [.word "ASCII"] ::
      [.word "DATASET", .word "POLYDATA"] ::
      [.word "POINTS", .int pts.length, .word "float"] ::
      (pts.map coordLineToks ++
        ([.word "LINES", .int 1, .int (pts.length + 1)] ::
         connLineToks ℚ pts.length ::
         [.word "POINT_DATA", .int pts.length] ::
         [.word "SCALARS", .word "Energy", .word "float", .int 1] ::
         [.word "LOOKUP_TABLE", .word "default"] ::
         es.map fun e => [Tok.flt e])) := by
    simp [createSimpleVtkFile]
  have hflat : (createSimpleVtkFile pts es).flatten =
      .word "#" :: .word "vtk" :: .word "DataFile" :: .word "Version" ::
      .word "3.0" :: .word "Drill" :: .word "path" :: .word "data" ::
      .word "ASCII" :: .word "DATASET" :: .word "POLYDATA" ::
      .word "POINTS" :: .int pts.length :: .word "float" ::
      ((pts.map coordLineToks).flatten ++
        (.word "LINES" :: .int 1 :: .int (pts.length + 1) ::
          (connLineToks ℚ pts.length ++
            (.word "POINT_DATA" :: .int pts.length ::
             .word "SCALARS" :: .word "Energy" :: .word "float" :: .int 1 ::
             .word "LOOKUP_TABLE" :: .word "default" ::
             (es.map fun e => [Tok.flt e]).flatten)))) := by
    rw [hcontent]
    simp [List.flatten_cons, List.flatten_append]
  have hmemCoordTok : ∀ kw : String,
      ∀ t ∈ (pts.map coordLineToks).flatten, t ≠ Tok.word kw := by
    intro kw t ht
    obtain ⟨q, rfl⟩ := mem_coord_flatten pts t ht
    simp
  have hmemConnTok : ∀ kw : String,
      ∀ t ∈ connLineToks ℚ pts.length, t ≠ Tok.word kw := by
    intro kw t ht
    obtain ⟨z, rfl⟩ := mem_conn _ t ht
    simp
  have hmemCoordLine : ∀ kw : String,
      ∀ l ∈ pts.map coordLineToks, lineHasWord kw l = false := by
    intro kw l hl
    obtain ⟨p, _, rfl⟩ := List.mem_map.mp hl
    exact lineHasWord_coord kw p
  have hfc : findCount "POINTS" (createSimpleVtkFile pts es).flatten =
      some pts.length := by
    rw [hflat]
    simp only [findCount_cons_word, findCount_cons_int, findCount_cons_flt,
      ne_eq, String.reduceEq, not_false_eq_true]
    rw [findCount_found _ _ _ (Int.natCast_nonneg _)]
    simp
  have hla : linesAfter "POINTS" (createSimpleVtkFile pts es) =
      some (pts.map coordLineToks ++
        ([.word "LINES", .int 1, .int (pts.length + 1)] ::
         connLineToks ℚ pts.length ::
         [.word "POINT_DATA", .int pts.length] ::
         [.word "SCALARS", .word "Energy", .word "float", .int 1] ::
         [.word "LOOKUP_TABLE", .word "default"] ::
         es.map fun e => [Tok.flt e])) := by
    rw [hcontent, linesAfter_cons_of_not, linesAfter_cons_of_not,
      linesAfter_cons_of_not, linesAfter_cons_of_not, linesAfter_cons_of_has]
    all_goals simp [lineHasWord]
  have hfc2 : findCount2 "LINES" (createSimpleVtkFile pts es).flatten =
      some (1, pts.length + 1) := by
    rw [hflat]
    simp only [findCount2_cons_word, findCount2_cons_int, findCount2_cons_flt,
      ne_eq, String.reduceEq, not_false_eq_true]
    rw [findCount2_append _ _ _ (hmemCoordTok "LINES")]
    rw [findCount2_found _ _ _ _ (by omega) (by omega)]
    simp
  have hlaL : linesAfter "LINES" (createSimpleVtkFile pts es) =
      some (connLineToks ℚ pts.length ::
         [.word "POINT_DATA", .int pts.length] ::
         [.word "SCALARS", .word "Energy", .word "float", .int 1] ::
         [.word "LOOKUP_TABLE", .word "default"] ::
         es.map fun e => [Tok.flt e]) := by
    rw [hcontent, linesAfter_cons_of_not, linesAfter_cons_of_not,
      linesAfter_cons_of_not, linesAfter_cons_of_not, linesAfter_cons_of_not,
      linesAfter_append _ _ _ (hmemCoordLine "LINES"),
      linesAfter_cons_of_has]
    all_goals simp [lineHasWord]
  have hscan : scanScalarName (createSimpleVtkFile pts es).flatten =
      some "Energy" := by
    rw [hflat]
    simp only [scanScalarName_cons_word, scanScalarName_cons_int,
      scanScalarName_cons_flt, ne_eq, String.reduceEq, not_false_eq_true]
    rw [scanScalarName_append _ _ (hmemCoordTok "SCALARS")]
    simp only [scanScalarName_cons_word, scanScalarName_cons_int,
      scanScalarName_cons_flt, ne_eq, String.reduceEq, not_false_eq_true]
    rw [scanScalarName_append _ _ (hmemConnTok "SCALARS")]
    simp only [scanScalarName_cons_word, scanScalarName_cons_int,
      scanScalarName_cons_flt, ne_eq, String.reduceEq, not_false_eq_true]
    rw [scanScalarName_found]
  have hlf : linesFrom "SCALARS" (createSimpleVtkFile pts es) =
      some ([.word "SCALARS", .word "Energy", .word "float", .int 1] ::
         [.word "LOOKUP_TABLE", .word "default"] ::
         es.map fun e => [Tok.flt e]) := by
    rw [hcontent, linesFrom_cons_of_not, linesFrom_cons_of_not,
      linesFrom_cons_of_not, linesFrom_cons_of_not, linesFrom_cons_of_not,
      linesFrom_append _ _ _ (hmemCoordLine "SCALARS"),
      linesFrom_cons_of_not, linesFrom_cons_of_not _ _ _ (lineHasWord_conn _ _),
      linesFrom_cons_of_not, linesFrom_cons_of_has]
    all_goals simp [lineHasWord]
  have hlt : linesAfter "LOOKUP_TABLE"
      ([Tok.word "SCALARS", Tok.word "Energy", Tok.word "float", Tok.int 1] ::
       [Tok.word "LOOKUP_TABLE", Tok.word "default"] ::
       es.map fun e => [Tok.flt e]) =
      some (es.map fun e => [Tok.flt e]) := by
    rw [linesAfter_cons_of_not, linesAfter_cons_of_has]
    all_goals simp [lineHasWord]
  have hesne : ¬ (es = []) := by
    intro hnil
    rw [hnil] at hlen
    simp at hlen
    omega
  have hreadsc : readScalarLines (es.map fun e => [Tok.flt e]) pts.length
      = es := by
    rw [← hlen]
    exact readScalarLines_energies es
  have hcells := readVertexLists_conn pts.length (by omega)
    ([.word "POINT_DATA", .int pts.length] ::
     [.word "SCALARS", .word "Energy", .word "float", .int 1] ::
     [.word "LOOKUP_TABLE", .word "default"] ::
     es.map fun e => [Tok.flt e])
  have htake : es.take pts.length = es :=
    List.take_of_length_le (by omega)
  unfold parse_vtk_file
  simp only [hfc, hla, hfc2, hlaL, hscan, hlf, hlt,
    readPointsLines_coordLines, hcells, hreadsc, hesne, htake, if_false]

/-- Witness for C1 at two concrete points. -/
theorem claim1_witness :
    2 ≤ ([((1 : ℚ), 2, 3), (4, 5, 6)]).length ∧
    ([(7 : ℚ), 8]).length = ([((1 : ℚ), 2, 3), (4, 5, 6)]).length ∧
    parse_vtk_file
        (createSimpleVtkFile [((1 : ℚ), 2, 3), (4, 5, 6)] [7, 8]) =
      { ok := true
        points := [((1 : ℚ), 2, 3), (4, 5, 6)]
        lines := [(List.range 2).map Int.ofNat]
        scalars := some ("Energy", [7, 8]) } :=
  ⟨by decide, by decide,
    claim1_write_read_round_trip _ _ (by decide) (by decide)⟩

/-- Counterexample to claim C3: a file truncated mid-block is not
rejected — this content declares three points but supplies only one,
and `parse_vtk_file` still returns success (`ok = true`) with the
truncated point list, not a failure result. -/
theorem claim3_counterexample :
    parse_vtk_file [[.word "POINTS", .int 3, .word "float"],
        [.flt 0, .flt 0, .flt 0]] =
      { ok := true, points := [((0 : ℚ), 0, 0)], lines := [],
        scalars := none } ∧
    findCount "POINTS"
        ([[.word "POINTS", .int 3, .word "float"],
          [.flt (0 : ℚ), .flt 0, .flt 0]]).flatten = some 3 := by
  constructor <;> rfl

/-- Claim C3 (amended): `parse_vtk_file` is total (the Python body is
wrapped in a blanket `try/except` returning `False`), and it returns a
failure result whenever no token of the input mentions `POINTS` — but
truncation mid-block is not detected, see the counterexample. -/
theorem claim3_missing_points_returns_false
    (content : List (List (Tok ℚ)))
    (h : ∀ l ∈ content, ∀ t ∈ l, mentionsPOINTS t = false) :
    (parse_vtk_file content).ok = false := by
  have hne : ∀ t ∈ content.flatten, t ≠ Tok.word "POINTS" := by
    intro t ht heq
    rw [List.mem_flatten] at ht
    obtain ⟨l, hl, htl⟩ := ht
    have hmt := h l hl t htl
    rw [heq] at hmt
    exact absurd hmt (by decide)
  unfold parse_vtk_file
  rw [findCount_none_of_no_points _ hne]

/-- Witness for the amended C3: a content with no `POINTS` anywhere is
rejected. -/
theorem claim3_witness :
    (∀ l ∈ ([[Tok.word "hello", Tok.flt (1 : ℚ)]] : List (List (Tok ℚ))),
      ∀ t ∈ l, mentionsPOINTS t = false) ∧
    (parse_vtk_file [[Tok.word "hello", Tok.flt (1 : ℚ)]]).ok = false :=
  ⟨by decide, claim3_missing_points_returns_false _ (by decide)⟩

end RoundTrip

section SurveyPoint

open PyStr SurveyPointCalculator

theorem digitVal_digitChar (d : ℕ) (h : d < 10) :
    digitVal (digitChar d) = d := by
  interval_cases d <;> decide

theorem isDigitChar_digitChar (d : ℕ) (h : d < 10) :
    isDigitChar (digitChar d) = true := by
  interval_cases d <;> decide

theorem digitChar_ne_plus (d : ℕ) (h : d < 10) : digitChar d ≠ '+' := by
  interval_cases d <;> decide

theorem digitChar_ne_dot (d : ℕ) (h : d < 10) : digitChar d ≠ '.' := by
  interval_cases d <;> decide

theorem ne_minus_of_isDigitChar (c : Char) (h : isDigitChar c = true) :
    c ≠ '-' := by
  intro he
  rw [he] at h
  exact absurd h (by decide)

theorem ne_plus_of_isDigitChar (c : Char) (h : isDigitChar c = true) :
    c ≠ '+' := by
  intro he
  rw [he] at h
  exact absurd h (by decide)

theorem digitsRevFuel_lt (f n : ℕ) : ∀ d ∈ digitsRevFuel f n, d < 10 := by
  induction f generalizing n with
  | zero =>
      intro d hd
      cases n with
      | zero => cases hd
      | succ m => cases hd
  | succ f ih =>
      intro d hd
      cases n with
      | zero => cases hd
      | succ m =>
          rw [digitsRevFuel] at hd
          rcases List.mem_cons.mp hd with h | h
          · rw [h]
            exact Nat.mod_lt _ (by omega)
          · exact ih _ d h

theorem digitsRevFuel_foldr (f n : ℕ) (h : n ≤ f) :
    (digitsRevFuel f n).foldr (fun d a => d + 10 * a) 0 = n := by
  induction f generalizing n with
  | zero =>
      interval_cases n
      rfl
  | succ f ih =>
      cases n with
      | zero => rfl
      | succ m =>
          rw [digitsRevFuel, List.foldr_cons]
          rw [ih ((m + 1) / 10) (by omega)]
          omega

theorem digitsRevFuel_length_le (f n k : ℕ) (h : n < 10 ^ k) :
    (digitsRevFuel f n).length ≤ k := by
  induction f generalizing n k with
  | zero =>
      cases n with
      | zero => simp [digitsRevFuel]
      | succ m => simp [digitsRevFuel]
  | succ f ih =>
      cases n with
      | zero => simp [digitsRevFuel]
      | succ m =>
          cases k with
          | zero => omega
          | succ j =>
              rw [digitsRevFuel, List.length_cons]
              have hdiv : (m + 1) / 10 < 10 ^ j := by
                rw [Nat.div_lt_iff_lt_mul (by omega)]
                calc m + 1 < 10 ^ (j + 1) := h
                _ = 10 ^ j * 10 := by ring
              exact Nat.succ_le_succ (ih _ _ hdiv)

theorem foldl_reverse_digits (l : List ℕ) (acc : ℕ) :
    (l.reverse).foldl (fun a d => 10 * a + d) acc =
      acc * 10 ^ l.length + l.foldr (fun d a => d + 10 * a) 0 := by
  induction l generalizing acc with
  | nil => simp
  | cons d ds ih =>
      rw [List.reverse_cons, List.foldl_append]
      rw [ih acc]
      simp only [List.foldl_cons, List.foldl_nil, List.foldr_cons,
        List.length_cons]
      ring

theorem natVal_map_digitChar_reverse (l : List ℕ) (h : ∀ d ∈ l, d < 10) :
    natVal ((l.map digitChar).reverse) =
      l.foldr (fun d a => d + 10 * a) 0 := by
  unfold natVal
  rw [← List.map_reverse, List.foldl_map]
  have hcong : ∀ (acc : ℕ) (m : List ℕ), (∀ d ∈ m, d < 10) →
      m.foldl (fun a d => 10 * a + digitVal (digitChar d)) acc =
        m.foldl (fun a d => 10 * a + d) acc := by
    intro acc m
    induction m generalizing acc with
    | nil => intro _; rfl
    | cons d ds ih =>
        intro hm
        simp only [List.foldl_cons]
        rw [digitVal_digitChar d (hm d (by simp))]
        exact ih _ fun u hu => hm u (by simp [hu])
  rw [hcong 0 l.reverse (fun d hd => h d (List.mem_reverse.mp hd))]
  rw [foldl_reverse_digits l 0]
  simp

theorem natVal_renderNat (n : ℕ) : natVal (renderNat n) = n := by
  unfold renderNat
  by_cases h : n = 0
  · rw [if_pos h, h]
    decide
  · rw [if_neg h]
    rw [natVal_map_digitChar_reverse _ (digitsRevFuel_lt n n)]
    exact digitsRevFuel_foldr n n le_rfl

theorem renderNat_all_digits (n : ℕ) :
    (renderNat n).all isDigitChar = true := by
  unfold renderNat
  by_cases h : n = 0
  · rw [if_pos h]
    decide
  · rw [if_neg h, List.all_eq_true]
    intro c hc
    rw [List.mem_reverse, List.mem_map] at hc
    obtain ⟨d, hd, rfl⟩ := hc
    exact isDigitChar_digitChar d (digitsRevFuel_lt n n d hd)

theorem renderNat_ne_nil (n : ℕ) : renderNat n ≠ [] := by
  unfold renderNat
  by_cases h : n = 0
  · rw [if_pos h]
    decide
  · rw [if_neg h]
    intro he
    have h0 := digitsRevFuel_foldr n n le_rfl
    have : (digitsRevFuel n n).map digitChar = [] := by
      cases hr : ((digitsRevFuel n n).map digitChar) with
      | nil => rfl
      | cons a l =>
          rw [hr] at he
          simp at he
    rw [List.map_eq_nil_iff] at this
    rw [this] at h0
    exact h (h0.symm)

theorem not_mem_renderNat_of_not_digit (n : ℕ) (c : Char)
    (hc : isDigitChar c = false) : c ∉ renderNat n := by
  intro hmem
  have := renderNat_all_digits n
  rw [List.all_eq_true] at this
  rw [this c hmem] at hc
  cases hc

theorem plus_not_mem_renderNat (n : ℕ) : '+' ∉ renderNat n :=
  not_mem_renderNat_of_not_digit n '+' (by decide)

theorem dot_not_mem_renderNat (n : ℕ) : '.' ∉ renderNat n :=
  not_mem_renderNat_of_not_digit n '.' (by decide)

theorem plus_not_mem_renderInt (z : ℤ) : '+' ∉ renderInt z := by
  unfold renderInt
  by_cases h : z < 0
  · rw [if_pos h]
    intro hmem
    rcases List.mem_cons.mp hmem with h1 | h1
    · cases h1
    · exact plus_not_mem_renderNat _ h1
  · rw [if_neg h]
    exact plus_not_mem_renderNat _

end SurveyPoint

section SurveyPoint2

open PyStr SurveyPointCalculator

theorem splitOnChar_not_mem (c : Char) (s : List Char) (h : c ∉ s) :
    splitOnChar c s = [s] := by
  induction s with
  | nil => rfl
  | cons a rest ih =>
      have hrest : c ∉ rest := fun hm => h (by simp [hm])
      have ha : a ≠ c := fun he => h (by simp [he])
      simp [splitOnChar, ih hrest, ha]

theorem splitOnChar_sep (c : Char) (a b : List Char) (ha : c ∉ a)
    (hb : c ∉ b) : splitOnChar c (a ++ c :: b) = [a, b] := by
  induction a with
  | nil => simp [splitOnChar, splitOnChar_not_mem c b hb]
  | cons x xs ih =>
      have hxs : c ∉ xs := fun hm => ha (by simp [hm])
      have hx : x ≠ c := fun he => ha (by simp [he])
      simp only [List.cons_append, splitOnChar]
      rw [List.append_eq, ih hxs]
      simp [hx]

theorem not_mem_of_all_digits (s : List Char)
    (h : s.all isDigitChar = true) (c : Char)
    (hc : isDigitChar c = false) : c ∉ s := by
  intro hm
  rw [List.all_eq_true] at h
  rw [h c hm] at hc
  cases hc

theorem parseUnsigned_digits (s : List Char) (hne : s ≠ [])
    (hdig : s.all isDigitChar = true) (hdot : '.' ∉ s) :
    parseUnsigned s = some ((natVal s : ℚ)) := by
  unfold parseUnsigned
  rw [splitOnChar_not_mem '.' s hdot]
  simp [hne, hdig]

theorem parseFloat_cons_minus (rest : List Char) :
    parseFloat ('-' :: rest) = (parseUnsigned rest).map (fun q => -q) := rfl

theorem parseFloat_cons_other (c : Char) (rest : List Char) (h1 : c ≠ '-')
    (h2 : c ≠ '+') : parseFloat (c :: rest) = parseUnsigned (c :: rest) := by
  show (if c = '-' then (parseUnsigned rest).map (fun q => -q)
    else if c = '+' then parseUnsigned rest
    else parseUnsigned (c :: rest)) = parseUnsigned (c :: rest)
  rw [if_neg h1, if_neg h2]

theorem parseFloat_digit_head (a b : List Char)
    (ha : a.all isDigitChar = true) (hne : a ≠ []) :
    parseFloat (a ++ b) = parseUnsigned (a ++ b) := by
  obtain ⟨c, rest, hcr⟩ := List.exists_cons_of_ne_nil hne
  have hcd : isDigitChar c = true := by
    rw [List.all_eq_true] at ha
    exact ha c (by rw [hcr]; simp)
  rw [hcr, List.cons_append]
  rw [parseFloat_cons_other c _ (ne_minus_of_isDigitChar c hcd)
    (ne_plus_of_isDigitChar c hcd)]

theorem parseFloat_renderNat (n : ℕ) :
    parseFloat (renderNat n) = some ((n : ℚ)) := by
  have h1 : parseFloat (renderNat n ++ []) = parseUnsigned (renderNat n ++ []) :=
    parseFloat_digit_head _ [] (renderNat_all_digits n) (renderNat_ne_nil n)
  rw [List.append_nil] at h1
  rw [h1, parseUnsigned_digits _ (renderNat_ne_nil n) (renderNat_all_digits n)
    (dot_not_mem_renderNat n), natVal_renderNat]

theorem parseFloat_renderInt (z : ℤ) :
    parseFloat (renderInt z) = some ((z : ℚ)) := by
  unfold renderInt
  by_cases h : z < 0
  · rw [if_pos h]
    rw [parseFloat_cons_minus]
    rw [parseUnsigned_digits _ (renderNat_ne_nil _) (renderNat_all_digits _)
      (dot_not_mem_renderNat _), natVal_renderNat]
    have h1 : -((z.natAbs : ℚ)) = (z : ℚ) := by
      exact_mod_cast (by omega : -((z.natAbs : ℤ)) = z)
    simp [h1]
  · rw [if_neg h, parseFloat_renderNat]
    have h1 : ((z.toNat : ℚ)) = (z : ℚ) := by
      exact_mod_cast Int.toNat_of_nonneg (by omega)
    rw [h1]

theorem natVal_append_zeros (m : ℕ) (s : List Char) :
    natVal (List.replicate m '0' ++ s) = natVal s := by
  unfold natVal
  rw [List.foldl_append]
  have hz : ∀ m : ℕ, List.foldl (fun a c => 10 * a + digitVal c) 0
      (List.replicate m '0') = 0 := by
    intro m
    induction m with
    | zero => rfl
    | succ m ih =>
        rw [List.replicate_succ, List.foldl_cons]
        simpa using ih
  rw [hz m]

theorem fracRender_all_digits (k f : ℕ) :
    (fracRender k f).all isDigitChar = true := by
  unfold fracRender
  rw [List.all_eq_true]
  intro c hc
  rcases List.mem_append.mp hc with h | h
  · rw [List.eq_of_mem_replicate h]
    decide
  · rw [List.mem_reverse, List.mem_map] at h
    obtain ⟨d, hd, rfl⟩ := h
    exact isDigitChar_digitChar d (digitsRevFuel_lt f f d hd)

theorem fracRender_length (k f : ℕ) (h : f < 10 ^ k) :
    (fracRender k f).length = k := by
  unfold fracRender
  rw [List.length_append, List.length_replicate, List.length_reverse,
    List.length_map]
  have := digitsRevFuel_length_le f f k h
  omega

theorem natVal_fracRender (k f : ℕ) (h : f < 10 ^ k) :
    natVal (fracRender k f) = f := by
  unfold fracRender
  rw [natVal_append_zeros]
  rw [natVal_map_digitChar_reverse _ (digitsRevFuel_lt f f)]
  exact digitsRevFuel_foldr f f le_rfl

theorem parseUnsigned_dec (ip k f : ℕ) (hf : f < 10 ^ k) :
    parseUnsigned (renderNat ip ++ '.' :: fracRender k f) =
      some ((ip : ℚ) + (f : ℚ) / 10 ^ k) := by
  unfold parseUnsigned
  rw [splitOnChar_sep '.' _ _ (dot_not_mem_renderNat ip)
    (not_mem_of_all_digits _ (fracRender_all_digits k f) '.' (by decide))]
  simp [renderNat_ne_nil ip, renderNat_all_digits ip,
    fracRender_all_digits k f, natVal_renderNat, natVal_fracRender k f hf,
    fracRender_length k f hf]

theorem plus_not_mem_dec_core (ip k f : ℕ) :
    '+' ∉ renderNat ip ++ '.' :: fracRender k f := by
  intro hm
  rcases List.mem_append.mp hm with h | h
  · exact plus_not_mem_renderNat ip h
  · rcases List.mem_cons.mp h with h1 | h1
    · cases h1
    · exact not_mem_of_all_digits _ (fracRender_all_digits k f) '+'
        (by decide) h1

theorem parseFloat_dec_core (ip k f : ℕ) (hf : f < 10 ^ k) :
    parseFloat (renderNat ip ++ '.' :: fracRender k f) =
      some ((ip : ℚ) + (f : ℚ) / 10 ^ k) := by
  rw [parseFloat_digit_head _ _ (renderNat_all_digits ip)
    (renderNat_ne_nil ip), parseUnsigned_dec ip k f hf]

end SurveyPoint2

section SurveyPoint3

open PyStr SurveyPointCalculator

theorem plus_not_mem_renderDec (e : ℚ) : '+' ∉ renderDec e := by
  unfold renderDec
  by_cases hneg : (e * 10 ^ e.den).num < 0
  · rw [if_pos hneg]
    intro hm
    rcases List.mem_cons.mp hm with h1 | h1
    · cases h1
    · rcases List.mem_append.mp h1 with h2 | h2
      · exact plus_not_mem_renderNat _ h2
      · rcases List.mem_cons.mp h2 with h3 | h3
        · cases h3
        · exact not_mem_of_all_digits _ (fracRender_all_digits _ _) '+'
            (by decide) h3
  · rw [if_neg hneg]
    exact plus_not_mem_dec_core _ _ _

theorem parseFloat_renderDec (e : ℚ) (hden : e.den ≠ 1)
    (hdvd : e.den ∣ 10 ^ e.den) :
    parseFloat (renderDec e) = some e := by
  have hd : ((e.den : ℤ)) ∣ (10 : ℤ) ^ e.den := by
    exact_mod_cast Int.natCast_dvd_natCast.mpr hdvd
  have hden0 : ((e.den : ℚ)) ≠ 0 := Nat.cast_ne_zero.mpr (Rat.den_ne_zero e)
  have hcast : (((10 : ℤ) ^ e.den / (e.den : ℤ) : ℤ) : ℚ) =
      (10 : ℚ) ^ e.den / (e.den : ℚ) := by
    rw [eq_div_iff hden0]
    exact_mod_cast Int.ediv_mul_cancel hd
  have hqe : e * 10 ^ e.den =
      (((e.num * ((10 : ℤ) ^ e.den / (e.den : ℤ))) : ℤ) : ℚ) := by
    calc e * 10 ^ e.den
        = ((e.num : ℚ) / (e.den : ℚ)) * 10 ^ e.den := by
          rw [Rat.num_div_den]
      _ = (e.num : ℚ) * ((10 : ℚ) ^ e.den / (e.den : ℚ)) := by ring
      _ = (e.num : ℚ) * (((10 : ℤ) ^ e.den / (e.den : ℤ) : ℤ) : ℚ) := by
          rw [hcast]
      _ = (((e.num * ((10 : ℤ) ^ e.den / (e.den : ℤ))) : ℤ) : ℚ) := by
          push_cast
          ring
  have hden1 : (e * 10 ^ e.den).den = 1 := by
    rw [hqe]
    exact Rat.den_intCast _
  have hm : (((e * 10 ^ e.den).num : ℤ) : ℚ) = e * 10 ^ e.den :=
    (Rat.den_eq_one_iff _).mp hden1
  have h10 : ((10 : ℚ) ^ e.den) ≠ 0 := by positivity
  have hmod : (e * 10 ^ e.den).num.natAbs % 10 ^ e.den < 10 ^ e.den :=
    Nat.mod_lt _ (by positivity)
  have hdm : ((e * 10 ^ e.den).num.natAbs / 10 ^ e.den) * 10 ^ e.den +
      (e * 10 ^ e.den).num.natAbs % 10 ^ e.den =
      (e * 10 ^ e.den).num.natAbs :=
    Nat.div_add_mod' _ _
  have hvalue : (((e * 10 ^ e.den).num.natAbs / 10 ^ e.den : ℕ) : ℚ) +
      ((((e * 10 ^ e.den).num.natAbs % 10 ^ e.den : ℕ)) : ℚ) / 10 ^ e.den =
      (((e * 10 ^ e.den).num.natAbs : ℕ) : ℚ) / 10 ^ e.den := by
    rw [eq_div_iff h10, add_mul, div_mul_cancel₀ _ h10]
    exact_mod_cast hdm
  unfold renderDec
  by_cases hneg : (e * 10 ^ e.den).num < 0
  · rw [if_pos hneg, parseFloat_cons_minus,
      parseUnsigned_dec _ _ _ hmod, hvalue]
    have ha : (((e * 10 ^ e.den).num.natAbs : ℚ)) = -(e * 10 ^ e.den) := by
      rw [Int.cast_natAbs, abs_of_neg hneg, Int.cast_neg, hm]
    have hgoal : -((((e * 10 ^ e.den).num.natAbs : ℕ) : ℚ) / 10 ^ e.den)
        = e := by
      rw [ha]
      field_simp
    simp only [Option.map_some']
    rw [hgoal]
  · rw [if_neg hneg, parseFloat_dec_core _ _ _ hmod, hvalue]
    have ha : (((e * 10 ^ e.den).num.natAbs : ℚ)) = e * 10 ^ e.den := by
      rw [Int.cast_natAbs, abs_of_nonneg (le_of_not_lt hneg), hm]
    congr 1
    rw [ha]
    field_simp

end SurveyPoint3

section SurveyPoint4

open PyStr SurveyPointCalculator

/-- Claim C7: for every valid survey point (integer-valued major index,
decimal-representable minor index — every Python float value is one),
parsing the formatted text gives the point back:
`parse_survey_point (format_survey_point c e) = some (c, e)`. -/
theorem claim7_parse_format_round_trip (c : ℤ) (e : ℚ)
    (hdvd : e.den ∣ 10 ^ e.den) :
    parse_survey_point (format_survey_point c e) = some ((c : ℚ), e) := by
  have hminor : ∃ T : List Char,
      format_survey_point c e = renderInt c ++ '+' :: T ∧
      '+' ∉ T ∧ parseFloat T = some e := by
    unfold format_survey_point
    by_cases h0 : e = 0
    · refine ⟨['0'], by rw [if_pos h0], by decide, ?_⟩
      rw [h0]
      rw [parseFloat_cons_other '0' [] (by decide) (by decide)]
      rw [parseUnsigned_digits ['0'] (by decide) (by decide) (by decide)]
      norm_num [natVal, digitVal]
      decide
    · rw [if_neg h0]
      by_cases h1 : e.den = 1
      · refine ⟨renderInt e.num, by rw [if_pos h1],
          plus_not_mem_renderInt _, ?_⟩
        rw [parseFloat_renderInt]
        rw [(Rat.den_eq_one_iff e).mp h1]
      · exact ⟨renderDec e, by rw [if_neg h1], plus_not_mem_renderDec e,
          parseFloat_renderDec e h1 hdvd⟩
  obtain ⟨T, hfmt, hTplus, hTparse⟩ := hminor
  rw [hfmt]
  unfold parse_survey_point
  have hmem : '+' ∈ renderInt c ++ '+' :: T := by simp
  have hcontains : (renderInt c ++ '+' :: T).contains '+' = true := by
    simpa using hmem
  rw [hcontains]
  rw [splitOnChar_sep '+' _ _ (plus_not_mem_renderInt c) hTplus]
  simp [parseFloat_renderInt, hTparse]

/-- Witness for C7 at the survey point `254+19.4`. -/
theorem claim7_witness :
    (97 / 5 : ℚ).den ∣ 10 ^ (97 / 5 : ℚ).den ∧
    parse_survey_point (format_survey_point 254 (97 / 5)) =
      some ((254 : ℚ), 97 / 5) :=
  ⟨by norm_num, claim7_parse_format_round_trip 254 (97 / 5) (by norm_num)⟩

end SurveyPoint4

section Affinity

open LMRCoordinateCalculator

theorem round3_close (x : ℝ) : |round3 x - x| ≤ 1 / 2000 := by
  unfold round3
  have h := abs_sub_round (x * 1000)
  have heq : (round (x * 1000) : ℝ) / 1000 - x =
      ((round (x * 1000) : ℝ) - x * 1000) / 1000 := by ring
  rw [heq, abs_div, abs_of_pos (show (0 : ℝ) < 1000 by norm_num),
    abs_sub_comm]
  linarith

theorem calcDefault_lX_round (d : ℝ) :
    (calcDefault d).lX = round3 ((coordsRawDefault d).lX) := rfl

theorem rawLX_slope (d1 d2 : ℝ) :
    (coordsRawDefault d2).lX - (coordsRawDefault d1).lX =
      -(Real.cos ((90 - 65.588) * Real.pi / 180)) * (d2 - d1) := by
  unfold coordsRawDefault coordsRaw defaultFrame
  ring

/-- Counterexample to claim C8: because `calculate_coordinates` rounds
each coordinate to three decimals, no fixed slope makes the difference
`calculate(D2) - calculate(D1)` of the `L_X` coordinate exactly linear
in `D2 - D1` (the claim asserts such a slope for each of the six
coordinates; here its negation is proved for `L_X`). -/
theorem claim8_counterexample :
    ¬ ∃ a : ℝ, ∀ d1 d2 : ℝ,
      (calcDefault d2).lX - (calcDefault d1).lX = a * (d2 - d1) := by
  rintro ⟨a, ha⟩
  have hmul : ∀ d : ℝ, ∃ k : ℤ, (calcDefault d).lX = (k : ℝ) / 1000 :=
    fun d => ⟨round ((coordsRawDefault d).lX * 1000), rfl⟩
  have ha0 : a = 0 := by
    by_contra hne
    have h1 := ha 0 (1 / (2000 * a))
    obtain ⟨k2, hk2⟩ := hmul (1 / (2000 * a))
    obtain ⟨k1, hk1⟩ := hmul 0
    rw [hk2, hk1] at h1
    have h2 : (k2 : ℝ) / 1000 - (k1 : ℝ) / 1000 = 1 / 2000 := by
      rw [h1]
      field_simp
      ring
    have h3 : ((2 * (k2 - k1) : ℤ) : ℝ) = 1 := by
      push_cast
      linarith
    have h4 : (2 * (k2 - k1) : ℤ) = 1 := by exact_mod_cast h3
    omega
  have hpos1 : (0 : ℝ) < 90 - 65.588 := by norm_num
  have hθpos : 0 < (90 - 65.588) * Real.pi / 180 := by
    have hπ := Real.pi_pos
    positivity
  have hθlt : (90 - 65.588) * Real.pi / 180 < Real.pi / 2 := by
    have hπ := Real.pi_pos
    rw [div_lt_div_iff (by norm_num) (by norm_num)]
    nlinarith
  have hc : 0 < Real.cos ((90 - 65.588) * Real.pi / 180) :=
    Real.cos_pos_of_mem_Ioo ⟨by linarith [Real.pi_pos], hθlt⟩
  have hcne : Real.cos ((90 - 65.588) * Real.pi / 180) ≠ 0 := ne_of_gt hc
  have hr : (coordsRawDefault (967 + 1 / Real.cos ((90 - 65.588) *
      Real.pi / 180))).lX - (coordsRawDefault 967).lX = -1 := by
    rw [rawLX_slope]
    field_simp
    ring
  have hb2 := round3_close ((coordsRawDefault (967 + 1 / Real.cos
    ((90 - 65.588) * Real.pi / 180))).lX)
  have hb1 := round3_close ((coordsRawDefault 967).lX)
  rw [← calcDefault_lX_round] at hb1 hb2
  have hdiff0 := ha 967 (967 + 1 / Real.cos ((90 - 65.588) *
    Real.pi / 180))
  rw [ha0, zero_mul] at hdiff0
  rw [abs_le] at hb1 hb2
  linarith [hb1.1, hb1.2, hb2.1, hb2.2]

/-- Claim C8 (amended): the pre-rounding coordinates are exactly affine
in the distance — the per-coordinate difference is a fixed slope
(`-cos θ` for the X coordinates, `sin θ` for the Y coordinates, with
`θ = (90 - 65.588)·π/180`) times `D2 - D1` — and each emitted
coordinate differs from the pre-rounding value by at most `1/2000`
because of the three-decimal rounding. -/
theorem claim8_affine_up_to_rounding :
    (∀ d1 d2 : ℝ,
      (coordsRawDefault d2).lX - (coordsRawDefault d1).lX =
        -(Real.cos ((90 - 65.588) * Real.pi / 180)) * (d2 - d1) ∧
      (coordsRawDefault d2).lY - (coordsRawDefault d1).lY =
        Real.sin ((90 - 65.588) * Real.pi / 180) * (d2 - d1) ∧
      (coordsRawDefault d2).mX - (coordsRawDefault d1).mX =
        -(Real.cos ((90 - 65.588) * Real.pi / 180)) * (d2 - d1) ∧
      (coordsRawDefault d2).mY - (coordsRawDefault d1).mY =
        Real.sin ((90 - 65.588) * Real.pi / 180) * (d2 - d1) ∧
      (coordsRawDefault d2).rX - (coordsRawDefault d1).rX =
        -(Real.cos ((90 - 65.588) * Real.pi / 180)) * (d2 - d1) ∧
      (coordsRawDefault d2).rY - (coordsRawDefault d1).rY =
        Real.sin ((90 - 65.588) * Real.pi / 180) * (d2 - d1)) ∧
    (∀ d : ℝ,
      |(calcDefault d).lX - (coordsRawDefault d).lX| ≤ 1 / 2000 ∧
      |(calcDefault d).lY - (coordsRawDefault d).lY| ≤ 1 / 2000 ∧
      |(calcDefault d).mX - (coordsRawDefault d).mX| ≤ 1 / 2000 ∧
      |(calcDefault d).mY - (coordsRawDefault d).mY| ≤ 1 / 2000 ∧
      |(calcDefault d).rX - (coordsRawDefault d).rX| ≤ 1 / 2000 ∧
      |(calcDefault d).rY - (coordsRawDefault d).rY| ≤ 1 / 2000) := by
  constructor
  · intro d1 d2
    refine ⟨?_, ?_, ?_, ?_, ?_, ?_⟩ <;>
      · unfold coordsRawDefault coordsRaw defaultFrame
        ring
  · intro d
    refine ⟨?_, ?_, ?_, ?_, ?_, ?_⟩ <;> exact round3_close _

end Affinity
